import Mathlib

/-!
Verification of the SQLite → PostgreSQL migration engine (`src/index.js`).

This file shallowly embeds the pure core of the program: the type mapper
(`mapSqliteTypeToSequelize`), the destination type classifier
(`classifyPgType`), the row sanitizers (`toJsDate`, `toBoolean`,
`toIntOrNull`, `toFloatOrNull`, `toDecimalStringOrNull`,
`emptyStringToNull`), the per-row coercion done by the batch copier
(`copyTableData`), its batch-failure handling, the foreign-key constraint
synthesis (`addForeignKeysForTable`) and the phase structure of `main`.

Modelling conventions:
* JavaScript numbers are modelled by `JsNum`: a rational payload for finite
  values plus `nan` / `inf` / `ninf` markers.  Every concrete value the
  claims exercise is exactly representable, so no floating-point rounding
  is involved anywhere in the statements below.
* JavaScript strings are Lean `String`s; `jsTrim`, `jsToUpper`,
  `jsToLower` model `String.prototype.trim` / `toUpperCase` /
  `toLowerCase` over the character list.
* `Number(string)` is modelled by `jsNumberOfString`, covering the
  whitespace-trimming, empty-string-to-0, signed decimal/scientific and
  `Infinity` forms (the hex/octal/binary literal forms are not modelled;
  no claim exercises them).
* `new Date(string)` parsing is environment defined, so it is a parameter
  `jsParse : String → Option ℚ` (the parsed epoch-millisecond value, or
  `none` for an invalid date).
* JavaScript objects (rows, `typesByCol`, the `tableMeta` map) are
  association lists in key insertion order; `setA`/`lookupA` model
  property write/read (`undefined` for a missing key is made explicit at
  the use sites).
-/

namespace S2P

/-! ### Character and string helpers (JS semantics) -/

/-- The character test used by `isAllDigitsStr` in the source:
code points 48–57. -/
def isDigitC (c : Char) : Bool :=
  48 ≤ c.toNat && c.toNat ≤ 57

/-- JS `WhiteSpace`/`LineTerminator` characters (the set `trim` strips):
TAB..CR, space, NBSP, BOM. -/
def jsIsWhiteChar (c : Char) : Bool :=
  c.toNat = 32 || (9 ≤ c.toNat && c.toNat ≤ 13) || c.toNat = 160 || c.toNat = 0xFEFF

/-- Model of `String.prototype.trim`. -/
def jsTrim (s : String) : String :=
  ⟨((s.data.dropWhile jsIsWhiteChar).reverse.dropWhile jsIsWhiteChar).reverse⟩

/-- Model of `String.prototype.toUpperCase` (ASCII range). -/
def jsToUpper (s : String) : String :=
  ⟨s.data.map Char.toUpper⟩

/-- Model of `String.prototype.toLowerCase` (ASCII range). -/
def jsToLower (s : String) : String :=
  ⟨s.data.map Char.toLower⟩

/-- List-level substring test: does `pat` occur as a prefix of `s`? -/
def isPrefixOfL : List Char → List Char → Bool
  | [], _ => true
  | _ :: _, [] => false
  | a :: as, b :: bs => a = b && isPrefixOfL as bs

/-- List-level substring test: does `pat` occur anywhere inside `s`?
Models `String.prototype.includes`. -/
def containsL (pat : List Char) : List Char → Bool
  | [] => isPrefixOfL pat []
  | c :: rest => isPrefixOfL pat (c :: rest) || containsL pat rest

/-- `s.includes(pat)` on `String`s. -/
def containsS (s pat : String) : Bool :=
  containsL pat.data s.data

/-- `s.startsWith(pat)` on `String`s. -/
def startsWithS (s pat : String) : Bool :=
  isPrefixOfL pat.data s.data

/-- Model of `String.prototype.replace` with a plain-string pattern:
replaces the first occurrence only, or returns the string unchanged. -/
def replaceFirstL (pat rep : List Char) : List Char → List Char
  | [] => if isPrefixOfL pat [] then rep else []
  | c :: rest =>
    if isPrefixOfL pat (c :: rest) then rep ++ (c :: rest).drop pat.length
    else c :: replaceFirstL pat rep rest

/-- `s.replace(pat, rep)` on `String`s (first occurrence, plain pattern). -/
def jsReplaceFirst (s pat rep : String) : String :=
  ⟨replaceFirstL pat.data rep.data s.data⟩

/-- Numeric value of a digit list (most significant first). -/
def digitsToNat (ds : List Char) : ℕ :=
  ds.foldl (fun a c => a * 10 + (c.toNat - 48)) 0

/-! ### JavaScript numbers -/

/-- A JavaScript number: a finite (rational) payload or one of the
non-finite values.  All concrete values appearing in the claims are
exactly representable rationals. -/
inductive JsNum where
  | val (q : ℚ)
  | nan
  | inf
  | ninf
deriving DecidableEq

/-- `Number.isFinite`. -/
def jsFinite : JsNum → Bool
  | .val _ => true
  | _ => false

/-- `n >= q` on JS numbers (`NaN` compares false). -/
def jsGe (n : JsNum) (q : ℚ) : Bool :=
  match n with
  | .val x => decide (q ≤ x)
  | .inf => true
  | .ninf => false
  | .nan => false

/-- `n < q` on JS numbers (`NaN` compares false). -/
def jsLt (n : JsNum) (q : ℚ) : Bool :=
  match n with
  | .val x => decide (x < q)
  | .inf => false
  | .ninf => true
  | .nan => false

/-- `n * 1000` on JS numbers. -/
def jsMul1000 : JsNum → JsNum
  | .val q => .val (q * 1000)
  | .nan => .nan
  | .inf => .inf
  | .ninf => .ninf

/-- Truncation toward zero on rationals (`Math.trunc` on the finite
payload). -/
def ratTrunc (q : ℚ) : ℚ :=
  if 0 ≤ q then (⌊q⌋ : ℚ) else (⌈q⌉ : ℚ)

/-- `Math.trunc` on JS numbers. -/
def jsTrunc : JsNum → JsNum
  | .val q => .val (ratTrunc q)
  | .nan => .nan
  | .inf => .inf
  | .ninf => .ninf

/-- `val !== 0` on JS numbers (note `NaN !== 0` is `true`). -/
def jsNeZero : JsNum → Bool
  | .val q => decide (q ≠ 0)
  | _ => true

/-- `TimeClip` of `new Date(number)`: times beyond ±8.64e15 ms become an
invalid date (`nan`); finite times are truncated to integral
milliseconds. -/
def mkDate (n : JsNum) : JsNum :=
  match n with
  | .val q =>
    if -8640000000000000 ≤ q ∧ q ≤ (8640000000000000 : ℚ) then .val (ratTrunc q) else .nan
  | _ => .nan

/-! ### `Number(string)` -/

/-- Exponent part after `e`/`E`: optional sign, then one or more digits. -/
def parseExpTail (cs : List Char) : Option ℤ :=
  let (sgn, cs') : ℤ × List Char :=
    match cs with
    | '+' :: r => (1, r)
    | '-' :: r => (-1, r)
    | r => (1, r)
  let (d, rest) := cs'.span isDigitC
  if d ≠ [] ∧ rest = [] then some (sgn * (digitsToNat d : ℤ)) else none

/-- Mantissa of a decimal literal: `digits`, `digits.digits?`, or
`.digits`. -/
def parseMantissa (cs : List Char) : Option ℚ :=
  let (ip, rest) := cs.span isDigitC
  match rest with
  | [] => if ip = [] then none else some ((digitsToNat ip : ℚ))
  | '.' :: frac =>
    if frac.all isDigitC ∧ ¬(ip = [] ∧ frac = []) then
      some ((digitsToNat ip : ℚ) + (digitsToNat frac : ℚ) / ((10 : ℚ) ^ frac.length))
    else none
  | _ => none

/-- Split a literal at the first `e`/`E`. -/
def splitOnExp : List Char → (List Char × Option (List Char))
  | [] => ([], none)
  | 'e' :: r => ([], some r)
  | 'E' :: r => ([], some r)
  | c :: r =>
    let (m, e) := splitOnExp r
    (c :: m, e)

/-- Apply a decimal exponent to a rational. -/
def applyExp (q : ℚ) (e : ℤ) : ℚ :=
  if 0 ≤ e then q * (10 : ℚ) ^ e.toNat else q / (10 : ℚ) ^ (-e).toNat

/-- Unsigned decimal/scientific literal. -/
def parseDecLit (cs : List Char) : Option ℚ :=
  let (m, e) := splitOnExp cs
  match parseMantissa m, e with
  | some q, none => some q
  | some q, some ecs =>
    match parseExpTail ecs with
    | some ez => some (applyExp q ez)
    | none => none
  | none, _ => none

/-- Unsigned numeric string: `Infinity` or a decimal literal. -/
def parseNumPos (cs : List Char) : JsNum :=
  if cs = "Infinity".data then .inf
  else
    match parseDecLit cs with
    | some q => .val q
    | none => .nan

/-- Negation on JS numbers. -/
def jsNeg : JsNum → JsNum
  | .val q => .val (-q)
  | .nan => .nan
  | .inf => .ninf
  | .ninf => .inf

/-- Model of `Number(string)`: trim JS whitespace, the empty remainder is
`0`, otherwise an optionally signed decimal/scientific literal or
`Infinity`; anything else is `NaN`.  (Hex/octal/binary literal forms are
not modelled; no claim exercises them.) -/
def jsNumberOfString (s : String) : JsNum :=
  let t := (jsTrim s).data
  if t = [] then .val 0
  else
    match t with
    | '+' :: rest => parseNumPos rest
    | '-' :: rest => jsNeg (parseNumPos rest)
    | _ => parseNumPos t

/-! ### `String(number)` -/

/-- Decimal digits of an integer. -/
def intToDecString (i : ℤ) : String :=
  (if i < 0 then "-" else "") ++ ⟨Nat.toDigits 10 i.natAbs⟩

/-- Fractional decimal digits of `num/den` (fuel-bounded long division). -/
def fracDigitChars : ℕ → ℕ → ℕ → List Char
  | 0, _, _ => []
  | _ + 1, 0, _ => []
  | fuel + 1, num, den =>
    Char.ofNat (48 + (num * 10) / den % 10) :: fracDigitChars fuel (num * 10 % den) den

/-- Model of JS `String(number)` on a finite value: sign, integer part,
and (when non-integral) fractional digits.  No claim depends on the exact
digit rendering beyond integral values. -/
def jsNumberToString (q : ℚ) : String :=
  if q.den = 1 then intToDecString q.num
  else
    let a := |q|
    let ip : ℤ := ⌊a⌋
    let r : ℚ := a - (ip : ℚ)
    (if q < 0 then "-" else "") ++ intToDecString ip ++ "." ++
      ⟨fracDigitChars 64 r.num.toNat r.den⟩

/-! ### Values and classifications -/

/-- A cell value as the copier sees it: SQLite results plus the values
the sanitizers produce (`null`, `undefined`, booleans, numbers, strings,
`Date` objects — a `Date` stores its epoch-millisecond time value, which
is `nan` for an invalid date). -/
inductive Value where
  | null
  | undef
  | bool (b : Bool)
  | num (n : JsNum)
  | str (s : String)
  | date (t : JsNum)
deriving DecidableEq

/-- The `DestinationTypeClass` enumeration produced by `classifyPgType`. -/
inductive PgClass where
  | date
  | boolean
  | int
  | float
  | decimal
  | other
deriving DecidableEq

/-- The `PortableType` results of `mapSqliteTypeToSequelize`
(`DataTypes.…` in the source; `STRINGn` is `DataTypes.STRING(len)` and
`DECIMALps` is `DataTypes.DECIMAL(p, s)`). -/
inductive SeqType where
  | INTEGER
  | STRINGn (len : ℕ)
  | TEXT
  | BLOB
  | DOUBLE
  | DECIMALps (p s : ℕ)
  | DECIMAL
  | DATE
  | BOOLEAN
  | UUID
deriving DecidableEq

/-! ### Type mapper (`mapSqliteTypeToSequelize`, src/index.js:83-100) -/

/-- `String(typeStrRaw || '').trim().toUpperCase()` (line 84). -/
def normalizedTypeStr (raw : String) : String :=
  jsToUpper (jsTrim raw)

/-- `parseLength` (lines 77-80): first `(digits)` group, as in the regex
`/\((\d+)\)/`. -/
def parseLengthL : List Char → Option ℕ
  | [] => none
  | '(' :: rest =>
    (match rest.span isDigitC with
     | (d, ')' :: _) => if d ≠ [] then some (digitsToNat d) else parseLengthL rest
     | _ => parseLengthL rest)
  | _ :: rest => parseLengthL rest

/-- `parseLength` on a `String`. -/
def parseLength (s : String) : Option ℕ :=
  parseLengthL s.data

/-- Attempt `(\d+)\s*,\s*(\d+)\)` right after an opening parenthesis. -/
def parsePSAt (rest : List Char) : Option (ℕ × ℕ) :=
  let (d1, r1) := rest.span isDigitC
  if d1 = [] then none
  else
    match r1.dropWhile jsIsWhiteChar with
    | ',' :: r3 =>
      let (d2, r5) := (r3.dropWhile jsIsWhiteChar).span isDigitC
      (match r5 with
       | ')' :: _ => if d2 ≠ [] then some (digitsToNat d1, digitsToNat d2) else none
       | _ => none)
    | _ => none

/-- The `/\((\d+)\s*,\s*(\d+)\)/` search of line 92. -/
def parsePrecScaleL : List Char → Option (ℕ × ℕ)
  | [] => none
  | '(' :: rest =>
    (match parsePSAt rest with
     | some r => some r
     | none => parsePrecScaleL rest)
  | _ :: rest => parsePrecScaleL rest

/-- `parsePrecScale` on a `String`. -/
def parsePrecScale (s : String) : Option (ℕ × ℕ) :=
  parsePrecScaleL s.data

/-- `mapSqliteTypeToSequelize` (lines 83-100): fixed-priority pattern
match over the normalized type string, total over every string, `TEXT`
fallback. -/
def mapSqliteTypeToSequelize (raw : String) : SeqType :=
  if containsS (normalizedTypeStr raw) "INT" then .INTEGER
  else if containsS (normalizedTypeStr raw) "CHAR" || containsS (normalizedTypeStr raw) "CLOB"
      || containsS (normalizedTypeStr raw) "TEXT" then
    (match parseLength (normalizedTypeStr raw) with
     | some n => .STRINGn n
     | none => .TEXT)
  else if containsS (normalizedTypeStr raw) "BLOB" then .BLOB
  else if containsS (normalizedTypeStr raw) "REAL" || containsS (normalizedTypeStr raw) "FLOA"
      || containsS (normalizedTypeStr raw) "DOUB" then .DOUBLE
  else if containsS (normalizedTypeStr raw) "DEC" || containsS (normalizedTypeStr raw) "NUM" then
    (match parsePrecScale (normalizedTypeStr raw) with
     | some (p, s) => .DECIMALps p s
     | none => .DECIMAL)
  else if containsS (normalizedTypeStr raw) "DATE" || containsS (normalizedTypeStr raw) "TIME" then .DATE
  else if normalizedTypeStr raw == "BOOLEAN" then .BOOLEAN
  else if normalizedTypeStr raw == "UUID" then .UUID
  else .TEXT

/-- Does the normalized type string match any of the listed patterns
(INT, CHAR/CLOB/TEXT, BLOB, REAL/FLOA/DOUB, DEC/NUM, DATE/TIME, exact
BOOLEAN, exact UUID)?  Used to state the `TEXT`-fallback claim. -/
def matchesKnownPattern (raw : String) : Bool :=
  containsS (normalizedTypeStr raw) "INT"
  || containsS (normalizedTypeStr raw) "CHAR" || containsS (normalizedTypeStr raw) "CLOB"
  || containsS (normalizedTypeStr raw) "TEXT"
  || containsS (normalizedTypeStr raw) "BLOB"
  || containsS (normalizedTypeStr raw) "REAL" || containsS (normalizedTypeStr raw) "FLOA"
  || containsS (normalizedTypeStr raw) "DOUB"
  || containsS (normalizedTypeStr raw) "DEC" || containsS (normalizedTypeStr raw) "NUM"
  || containsS (normalizedTypeStr raw) "DATE" || containsS (normalizedTypeStr raw) "TIME"
  || normalizedTypeStr raw == "BOOLEAN"
  || normalizedTypeStr raw == "UUID"

/-! ### Destination type classifier (`classifyPgType`, lines 191-199) -/

/-- `classifyPgType`: pattern match on PG's reported type name. -/
def classifyPgType (typeStr : String) : PgClass :=
  if containsS (jsToLower typeStr) "timestamp" || jsToLower typeStr == "date"
      || startsWithS (jsToLower typeStr) "time" then .date
  else if containsS (jsToLower typeStr) "boolean" then .boolean
  else if containsS (jsToLower typeStr) "double" || containsS (jsToLower typeStr) "real"
      || containsS (jsToLower typeStr) "float" then .float
  else if containsS (jsToLower typeStr) "numeric" || containsS (jsToLower typeStr) "decimal" then .decimal
  else if containsS (jsToLower typeStr) "int" then .int
  else .other

/-! ### Row sanitizers (lines 114-188) -/

/-- `isAllDigitsStr` (lines 114-122): nonempty and every code point in
48–57. -/
def isAllDigitsStr (s : String) : Bool :=
  s.data ≠ [] && s.data.all isDigitC

/-- The `typeof val === 'number'` block of `toJsDate` plus its
`new Date(val)` fallthrough (lines 128-134 applied to a number):
`0 ↦ null`; `≥ 1e12 ↦ ms epoch`; `[1e9, 5e12) ↦ sec epoch`; otherwise
`new Date(n)` with the invalid-date check. -/
def numericDatePath (n : JsNum) : Value :=
  if n = .val 0 then .null
  else if jsGe n 1000000000000 then .date (mkDate n)
  else if jsGe n 1000000000 && jsLt n 5000000000000 then .date (mkDate (jsMul1000 n))
  else if mkDate n = .nan then .null else .date (mkDate n)

/-- `toJsDate` (lines 124-135).  `jsParse` is the environment's
`new Date(string)` parser (epoch ms, or `none` for an invalid date). -/
def toJsDate (jsParse : String → Option ℚ) (v : Value) : Value :=
  match v with
  | .null => .null
  | .undef => .null
  | .date t => .date t
  | .str s =>
    if s = "" then .null
    else if isAllDigitsStr s then numericDatePath (jsNumberOfString s)
    else
      match jsParse s with
      | none => .null
      | some t => .date (.val t)
  | .num n => numericDatePath n
  | .bool b =>
    if mkDate (.val (if b then 1 else 0)) = .nan then .null
    else .date (mkDate (.val (if b then 1 else 0)))

/-- `emptyStringToNull` (lines 137-142); `flag` is
`TREAT_EMPTY_STRING_AS_NULL`. -/
def emptyStringToNull (flag : Bool) (v : Value) : Value :=
  if flag = false then v
  else
    match v with
    | .null => .null
    | .undef => .undef
    | .str s => if jsTrim s = "" then .null else .str s
    | w => w

/-- `toBoolean` (lines 144-153).  A `Date` value reaches the
string-matching branch via `String(val)`; a date's string form is never
one of the boolean tokens, so it yields `null`. -/
def toBoolean (flag : Bool) (v : Value) : Value :=
  match emptyStringToNull flag v with
  | .null => .null
  | .undef => .null
  | .bool b => .bool b
  | .num n => .bool (jsNeZero n)
  | .str s =>
    if jsToLower (jsTrim s) = "true" ∨ jsToLower (jsTrim s) = "t"
        ∨ jsToLower (jsTrim s) = "yes" ∨ jsToLower (jsTrim s) = "y"
        ∨ jsToLower (jsTrim s) = "1" then .bool true
    else if jsToLower (jsTrim s) = "false" ∨ jsToLower (jsTrim s) = "f"
        ∨ jsToLower (jsTrim s) = "no" ∨ jsToLower (jsTrim s) = "n"
        ∨ jsToLower (jsTrim s) = "0" then .bool false
    else .null
  | .date _ => .null

/-- `toIntOrNull` (lines 155-164). -/
def toIntOrNull (flag : Bool) (v : Value) : Value :=
  match emptyStringToNull flag v with
  | .str s =>
    (match jsNumberOfString s with
     | .val q => .num (.val (ratTrunc q))
     | _ => .null)
  | .num (.val q) => .num (.val (ratTrunc q))
  | _ => .null

/-- `toFloatOrNull` (lines 166-175). -/
def toFloatOrNull (flag : Bool) (v : Value) : Value :=
  match emptyStringToNull flag v with
  | .str s =>
    (match jsNumberOfString s with
     | .val q => .num (.val q)
     | _ => .null)
  | .num (.val q) => .num (.val q)
  | _ => .null

/-- The strict pattern `/^-?\d+(\.\d+)?([eE][+-]?\d+)?$/` of line 181:
exponent tail. -/
def decExpTail (cs : List Char) : Bool :=
  let cs' :=
    match cs with
    | '+' :: r => r
    | '-' :: r => r
    | r => r
  let (d, rest) := cs'.span isDigitC
  d ≠ [] && rest = []

/-- Optional exponent after the mantissa. -/
def decExpOpt : List Char → Bool
  | [] => true
  | 'e' :: r => decExpTail r
  | 'E' :: r => decExpTail r
  | _ => false

/-- After the integer digits: optional `.digits`, then optional exponent. -/
def decAfterInt : List Char → Bool
  | '.' :: r =>
    let (d, rest) := r.span isDigitC
    d ≠ [] && decExpOpt rest
  | cs => decExpOpt cs

/-- Body after the optional sign: one or more digits, then the rest. -/
def decBody (cs : List Char) : Bool :=
  let (d, rest) := cs.span isDigitC
  d ≠ [] && decAfterInt rest

/-- Full-string test of `/^-?\d+(\.\d+)?([eE][+-]?\d+)?$/`. -/
def decPatternTest (s : String) : Bool :=
  match s.data with
  | '-' :: r => decBody r
  | cs => decBody cs

/-- `toDecimalStringOrNull` (lines 177-188). -/
def toDecimalStringOrNull (flag : Bool) (v : Value) : Value :=
  match emptyStringToNull flag v with
  | .str s => if decPatternTest (jsTrim s) then .str (jsTrim s) else .null
  | .num (.val q) => .str (jsNumberToString q)
  | _ => .null

/-- The per-kind dispatch of `copyTableData`'s coercion loop
(lines 300-307): class `other` matches no branch and leaves the value
untouched. -/
def sanitizeValue (flag : Bool) (jsParse : String → Option ℚ) (k : PgClass) (v : Value) : Value :=
  match k with
  | .date => toJsDate jsParse v
  | .boolean => toBoolean flag v
  | .int => toIntOrNull flag v
  | .float => toFloatOrNull flag v
  | .decimal => toDecimalStringOrNull flag v
  | .other => v

/-- Specification-side definition for C2 (follows the spec's words, not
the source): the single empty-string flag acts as a pre-pass that, when
enabled, converts a string that is empty after trimming to null before
any per-class logic runs, and otherwise does nothing. -/
def preNullOfFlag (flag : Bool) (v : Value) : Value :=
  if flag then
    match v with
    | .str s => if jsTrim s = "" then .null else .str s
    | w => w
  else v

/-- Specification-side definition for C2: the sanitizer as the spec
describes it — the flag-controlled pre-pass, then the flag-independent
per-class logic (the per-class logic with no empty-string conversion is
the `flag = false` sanitizer). -/
def sanitizeSpecEmptyPolicy (flag : Bool) (jsParse : String → Option ℚ)
    (k : PgClass) (v : Value) : Value :=
  sanitizeValue false jsParse k (preNullOfFlag flag v)

/-! ### Rows and ordered maps (JS objects / `Map` in insertion order) -/

/-- Read a property: `none` when the key is absent (the caller decides
whether that is `undefined`). -/
def lookupA {β : Type} : List (String × β) → String → Option β
  | [], _ => none
  | (k', v') :: rest, k => if k' = k then some v' else lookupA rest k

/-- Write a property: replace the first binding of the key, or append a
new one (JS object/`Map` insertion-order semantics). -/
def setA {β : Type} : List (String × β) → String → β → List (String × β)
  | [], k, v => [(k, v)]
  | (k', v') :: rest, k, v =>
    if k' = k then (k, v) :: rest else (k', v') :: setA rest k v

/-- A fetched row: column name to cell value, in column order. -/
abbrev Row : Type := List (String × Value)

/-- One iteration of the coercion loop over `Object.entries(meta.typesByCol)`
(lines 300-307): `out[col] = toXxx(out[col])` for the five sanitizing
kinds; kind `other` matches no branch.  A missing key reads as
`undefined`. -/
def coerceStep (flag : Bool) (jsParse : String → Option ℚ) (out : Row)
    (ck : String × PgClass) : Row :=
  match ck.2 with
  | .date => setA out ck.1 (toJsDate jsParse ((lookupA out ck.1).getD .undef))
  | .boolean => setA out ck.1 (toBoolean flag ((lookupA out ck.1).getD .undef))
  | .int => setA out ck.1 (toIntOrNull flag ((lookupA out ck.1).getD .undef))
  | .float => setA out ck.1 (toFloatOrNull flag ((lookupA out ck.1).getD .undef))
  | .decimal => setA out ck.1 (toDecimalStringOrNull flag ((lookupA out ck.1).getD .undef))
  | .other => out

/-- The per-row coercion of `copyTableData` (lines 298-309): start from
the shallow copy `{ ...row }` and run the loop over the table's
`typesByCol` entries. -/
def coerceRow (flag : Bool) (jsParse : String → Option ℚ)
    (typesByCol : List (String × PgClass)) (row : Row) : Row :=
  typesByCol.foldl (coerceStep flag jsParse) row

/-- `tableMeta.get(table.name) || { typesByCol: {} }` (line 289): the
classification map the copy phase actually uses for a table. -/
def metaFor (cache : List (String × List (String × PgClass))) (t : String) :
    List (String × PgClass) :=
  (lookupA cache t).getD []

/-! ### Batch-failure handling (lines 311-333) -/

/-- The row-by-row diagnostic loop (lines 316-330): row inserts run in
order; the first failing row's error is thrown; if every row succeeds
individually the loop falls through.  `outcomes` lists each single-row
insert's result (`none` = success). -/
def rowFallbackLoop {α : Type} (e : α) : List (Option α) → α
  | [] => e
  | none :: rest => rowFallbackLoop e rest
  | some re :: _ => re

/-- The whole `catch` block of the bulk insert (lines 313-333): with
`DEBUG_ON_ERROR` the diagnostic loop runs first (line 332's `throw e`
fires only if it falls through); without it the original error `e` is
re-thrown immediately.  The result is the error that propagates out of
`copyTableData` — the handler never returns success. -/
def batchFailureHandler {α : Type} (debugOnErr : Bool) (e : α)
    (outcomes : List (Option α)) : α :=
  if debugOnErr then rowFallbackLoop e outcomes else e

/-! ### Foreign keys (`addForeignKeysForTable`, lines 342-366) -/

/-- One row of `PRAGMA foreign_key_list`: constraint id, referenced
table, local and referenced columns, and the textual actions (absent
modelled as `none`; SQLite reports e.g. `"RESTRICT"`, `"NO ACTION"`). -/
structure FkRow where
  id : ℕ
  table : String
  fromCol : String
  toCol : String
  on_update : Option String
  on_delete : Option String
deriving DecidableEq

/-- `(parts[0].on_update || 'NO ACTION').replace('RESTRICT', 'NO ACTION')`
(lines 361-362): a missing or empty action defaults to `NO ACTION`, and
the first occurrence of `RESTRICT` is rewritten to `NO ACTION`. -/
def normalizeAction (a : Option String) : String :=
  jsReplaceFirst
    (match a with
     | none => "NO ACTION"
     | some s => if s = "" then "NO ACTION" else s)
    "RESTRICT" "NO ACTION"

/-- Group the pragma rows by constraint id, preserving first-occurrence
order of ids and row order within a group (the `byId` `Map` of
lines 346-350). -/
def insertFkGroup : List (ℕ × List FkRow) → FkRow → List (ℕ × List FkRow)
  | [], fk => [(fk.id, [fk])]
  | (i, g) :: rest, fk =>
    if i = fk.id then (i, g ++ [fk]) :: rest else (i, g) :: insertFkGroup rest fk

/-- `byId` as a list of (id, rows) groups. -/
def groupFksById (fks : List FkRow) : List (ℕ × List FkRow) :=
  fks.foldl insertFkGroup []

/-- The constraint passed to `queryInterface.addConstraint`
(lines 356-364). -/
structure FkConstraint where
  onTable : String
  fields : List String
  name : String
  refTable : String
  refFields : List String
  onUpdate : String
  onDelete : String
  initiallyDeferred : Bool
deriving DecidableEq

/-- Build the constraint for one non-empty id-group (lines 352-364). -/
def mkFkConstraint (tname : String) (id : ℕ) (parts : List FkRow) :
    Option FkConstraint :=
  match parts with
  | [] => none
  | p0 :: _ =>
    some
      { onTable := tname
        fields := parts.map (·.fromCol)
        name := tname ++ "_fk_" ++ intToDecString (id : ℤ)
        refTable := p0.table
        refFields := parts.map (·.toCol)
        onUpdate := normalizeAction p0.on_update
        onDelete := normalizeAction p0.on_delete
        initiallyDeferred := true }

/-- `addForeignKeysForTable` (lines 342-366): one constraint per
id-group. -/
def addForeignKeysForTable (tname : String) (fks : List FkRow) :
    List FkConstraint :=
  (groupFksById fks).filterMap (fun ig => mkFkConstraint tname ig.1 ig.2)

/-! ### Phase structure of `main` (lines 369-410) and the metadata cache -/

/-- `describeTable` readback → classification (lines 264-268). -/
def classifyCols (describe : String → List (String × String)) (t : String) :
    List (String × PgClass) :=
  (describe t).map (fun ci => (ci.1, classifyPgType ci.2))

/-- The `tableMeta.set` effects of the create-tables loop (lines 388-391,
each iteration running `createPgTableFromSqlite`, which stores the
classification at line 269). -/
def runCreatePhase (describe : String → List (String × String))
    (tables : List String) (cache : List (String × List (String × PgClass))) :
    List (String × List (String × PgClass)) :=
  tables.foldl (fun m t => setA m t (classifyCols describe t)) cache

/-- One step of `main`'s strictly sequential control flow. -/
inductive Phase where
  | create (t : String)
  | copy (t : String)
  | link (t : String)
deriving DecidableEq

/-- The order of table-level steps in `main` (lines 387-405): all
`createPgTableFromSqlite` calls, then all `copyTableData` calls, then —
only when `ADD_FOREIGN_KEYS` — all `addForeignKeysForTable` calls. -/
def mainTrace (addFk : Bool) (tables : List String) : List Phase :=
  tables.map .create ++ (tables.map .copy ++ if addFk then tables.map .link else [])

/-! ### Helper lemmas -/

theorem esn_false_id (v : Value) : emptyStringToNull false v = v := by
  simp [emptyStringToNull]

theorem esn_null (flag : Bool) : emptyStringToNull flag .null = .null := by
  cases flag <;> rfl

theorem esn_undef (flag : Bool) : emptyStringToNull flag .undef = .undef := by
  cases flag <;> rfl

theorem esn_bool (flag : Bool) (b : Bool) :
    emptyStringToNull flag (.bool b) = .bool b := by
  cases flag <;> rfl

theorem esn_num (flag : Bool) (n : JsNum) :
    emptyStringToNull flag (.num n) = .num n := by
  cases flag <;> rfl

theorem esn_date (flag : Bool) (t : JsNum) :
    emptyStringToNull flag (.date t) = .date t := by
  cases flag <;> rfl

theorem toBoolean_esn (flag : Bool) (v : Value) :
    toBoolean flag v = toBoolean false (emptyStringToNull flag v) := by
  simp only [toBoolean, esn_false_id]

theorem toIntOrNull_esn (flag : Bool) (v : Value) :
    toIntOrNull flag v = toIntOrNull false (emptyStringToNull flag v) := by
  simp only [toIntOrNull, esn_false_id]

theorem toFloatOrNull_esn (flag : Bool) (v : Value) :
    toFloatOrNull flag v = toFloatOrNull false (emptyStringToNull flag v) := by
  simp only [toFloatOrNull, esn_false_id]

theorem toDecimalStringOrNull_esn (flag : Bool) (v : Value) :
    toDecimalStringOrNull flag v = toDecimalStringOrNull false (emptyStringToNull flag v) := by
  simp only [toDecimalStringOrNull, esn_false_id]

/-- A string trimming to empty consists of JS whitespace only. -/
theorem all_white_of_trim_empty {s : String} (h : jsTrim s = "") :
    ∀ c ∈ s.data, jsIsWhiteChar c = true := by
  have h1 : ((s.data.dropWhile jsIsWhiteChar).reverse.dropWhile jsIsWhiteChar).reverse = [] :=
    congrArg String.data h
  rw [List.reverse_eq_nil_iff] at h1
  rw [List.dropWhile_eq_nil_iff] at h1
  have h2 : ∀ c ∈ s.data.dropWhile jsIsWhiteChar, jsIsWhiteChar c = true := by
    intro c hc
    exact h1 c (List.mem_reverse.mpr hc)
  intro c hc
  rw [← List.takeWhile_append_dropWhile (p := jsIsWhiteChar) (l := s.data)] at hc
  rcases List.mem_append.mp hc with h3 | h3
  · exact List.mem_takeWhile_imp h3
  · exact h2 c h3

theorem white_not_digit {c : Char} (h : jsIsWhiteChar c = true) : isDigitC c = false := by
  simp only [jsIsWhiteChar, Bool.or_eq_true, decide_eq_true_eq, Bool.and_eq_true] at h
  simp only [isDigitC, Bool.and_eq_false_iff, decide_eq_false_iff_not, not_le]
  omega

/-- A string trimming to empty is not an all-digit string. -/
theorem not_allDigits_of_trim_empty {s : String} (h : jsTrim s = "") :
    isAllDigitsStr s = false := by
  cases hd : s.data with
  | nil => simp [isAllDigitsStr, hd]
  | cons c rest =>
    have hw : jsIsWhiteChar c = true := all_white_of_trim_empty h c (by rw [hd]; exact List.mem_cons_self ..)
    simp only [isAllDigitsStr, hd, List.all_cons, Bool.and_eq_false_iff]
    right
    left
    exact white_not_digit hw

/-- `Math.trunc` fixes integral rationals. -/
theorem ratTrunc_den_one {q : ℚ} (h : q.den = 1) : ratTrunc q = q := by
  have hq : (q.num : ℚ) = q := by
    rw [← Rat.num_div_den q, h]
    norm_num
  unfold ratTrunc
  split
  · rw [← hq, Int.floor_intCast]
  · rw [← hq, Int.ceil_intCast]

/-- `new Date(n)` on an in-range integral time value stores it as is. -/
theorem mkDate_int {q : ℚ} (hden : q.den = 1) (h1 : -8640000000000000 ≤ q)
    (h2 : q ≤ (8640000000000000 : ℚ)) : mkDate (.val q) = .val q := by
  have hu : mkDate (.val q)
      = if -8640000000000000 ≤ q ∧ q ≤ (8640000000000000 : ℚ) then .val (ratTrunc q) else .nan :=
    rfl
  rw [hu, if_pos ⟨h1, h2⟩, ratTrunc_den_one hden]

/-- The decimal sanitizer on a string whose trimmed form matches the
pattern returns the trimmed form. -/
theorem toDecimal_str_match (flag : Bool) (s : String)
    (h : decPatternTest (jsTrim s) = true) :
    toDecimalStringOrNull flag (.str s) = .str (jsTrim s) := by
  have hne : ¬ jsTrim s = "" := by
    intro he
    rw [he] at h
    exact absurd h (by decide)
  cases flag with
  | false => simp [toDecimalStringOrNull, emptyStringToNull, h]
  | true => simp [toDecimalStringOrNull, emptyStringToNull, hne, h]

/-- The decimal sanitizer on a string whose trimmed form does not match
the pattern returns null. -/
theorem toDecimal_str_nomatch (flag : Bool) (s : String)
    (h : decPatternTest (jsTrim s) = false) :
    toDecimalStringOrNull flag (.str s) = .null := by
  cases flag with
  | false => simp [toDecimalStringOrNull, emptyStringToNull, h]
  | true =>
    by_cases he : jsTrim s = ""
    · simp [toDecimalStringOrNull, emptyStringToNull, he]
    · simp [toDecimalStringOrNull, emptyStringToNull, he, h]

/-- The `emptyStringToNull` helper coincides with the spec's description
of the flag-controlled pre-pass. -/
theorem esn_eq_preNull (flag : Bool) (v : Value) :
    emptyStringToNull flag v = preNullOfFlag flag v := by
  cases flag with
  | false => simp [emptyStringToNull, preNullOfFlag]
  | true => cases v <;> simp [emptyStringToNull, preNullOfFlag]

/-! ### Claim theorems -/

/-- **C3.** The type mapper is a total, deterministic function of the raw
source type string: it is defined (as a total Lean function) for every
string, including the empty and malformed ones, so it never throws; two
applications to the same string agree; and any string matching none of
the listed patterns (INT, CHAR/CLOB/TEXT, BLOB, REAL/FLOA/DOUB, DEC/NUM,
DATE/TIME, exact BOOLEAN, exact UUID — all on the normalized string) maps
to TEXT. -/
theorem C3_type_mapper_total_fallback (s : String) :
    mapSqliteTypeToSequelize s = mapSqliteTypeToSequelize s ∧
    (matchesKnownPattern s = false → mapSqliteTypeToSequelize s = .TEXT) := by
  refine ⟨rfl, fun h => ?_⟩
  simp only [matchesKnownPattern, Bool.or_eq_false_iff] at h
  obtain ⟨⟨⟨⟨⟨⟨⟨⟨⟨⟨⟨⟨⟨h1, h2⟩, h3⟩, h4⟩, h5⟩, h6⟩, h7⟩, h8⟩, h9⟩, h10⟩, h11⟩, h12⟩, h13⟩, h14⟩ := h
  simp [mapSqliteTypeToSequelize, h1, h2, h3, h4, h5, h6, h7, h8, h9, h10, h11, h12, h13, h14]

/-- Witness for C3 at the concrete unmatched type string `"JSONB"`. -/
theorem C3_witness :
    matchesKnownPattern "JSONB" = false ∧ mapSqliteTypeToSequelize "JSONB" = .TEXT :=
  ⟨by decide, (C3_type_mapper_total_fallback "JSONB").2 (by decide)⟩

/-- **C1, counterexample.**  The claim says the error that propagates out
of the copy is, in every case, the original batch-insert error.  With the
row-level fallback enabled (first argument `true`), original batch error
`0`, and the page's single row failing with row error `1`
(`[some 1]`), the `catch` block of lines 311-333 re-throws the row error
`1` (line 328), not the original batch error `0`. -/
theorem C1_counterexample :
    batchFailureHandler true (0 : ℕ) [some 1] = 1 ∧
      batchFailureHandler true (0 : ℕ) [some 1] ≠ 0 := by
  decide

/-- The diagnostic loop yields the original error when every single-row
insert succeeds. -/
theorem rowFallbackLoop_all_none {α : Type} (e : α) :
    ∀ outcomes : List (Option α), (∀ r ∈ outcomes, r = none) →
      rowFallbackLoop e outcomes = e := by
  intro outcomes
  induction outcomes with
  | nil => intro _; rfl
  | cons r rest ih =>
    intro h
    have hr : r = none := h r (List.mem_cons_self ..)
    subst hr
    exact ih fun x hx => h x (List.mem_cons_of_mem _ hx)

/-- The diagnostic loop yields the first failing row's error. -/
theorem rowFallbackLoop_first_failure {α : Type} (e : α) :
    ∀ (outcomes : List (Option α)) (i : ℕ) (re : α),
      outcomes.get? i = some (some re) →
      (∀ j, j < i → outcomes.get? j = some none) →
      rowFallbackLoop e outcomes = re := by
  intro outcomes
  induction outcomes with
  | nil => intro i re h _; simp at h
  | cons r rest ih =>
    intro i re h hbefore
    cases i with
    | zero =>
      simp only [List.get?] at h
      cases h
      rfl
    | succ i' =>
      have hr : r = none := by
        have := hbefore 0 (Nat.succ_pos i')
        simpa using this
      subst hr
      exact ih i' re (by simpa using h) fun j hj => by
        have := hbefore (j + 1) (Nat.succ_lt_succ hj)
        simpa using this

/-- **C1, amended.**  When a page's bulk insert fails: with the row-level
debug fallback disabled, the original batch error is raised immediately;
with it enabled, the page is retried one row at a time for diagnosis and
the error that propagates is the first failing row's error — the original
batch error is re-raised only when every row succeeds individually.  In
every case an error propagates (the fallback never turns the failure into
success: the handler's result type is an error). -/
theorem C1_batch_error_flow {α : Type} (e : α) (outcomes : List (Option α)) :
    (∀ dbg : Bool, dbg = false → batchFailureHandler dbg e outcomes = e) ∧
    ((∀ r ∈ outcomes, r = none) →
      ∀ dbg : Bool, batchFailureHandler dbg e outcomes = e) ∧
    (∀ (i : ℕ) (re : α), outcomes.get? i = some (some re) →
      (∀ j, j < i → outcomes.get? j = some none) →
      batchFailureHandler true e outcomes = re) := by
  refine ⟨fun dbg h => by rw [h]; rfl, fun h dbg => ?_, fun i re h1 h2 => ?_⟩
  · cases dbg
    · rfl
    · exact rowFallbackLoop_all_none e outcomes h
  · exact rowFallbackLoop_first_failure e outcomes i re h1 h2

/-- Witness for C1 (amended) at concrete inputs: fallback disabled keeps
the batch error `5`; all rows succeeding re-raises `5`; with rows
`[none, some 9, some 7]` the first failing row's error `9` propagates. -/
theorem C1_batch_error_flow_witness :
    batchFailureHandler false (5 : ℕ) [some 9] = 5 ∧
    batchFailureHandler true (5 : ℕ) [none, none] = 5 ∧
    batchFailureHandler true (5 : ℕ) [none, some 9, some 7] = 9 := by
  refine ⟨(C1_batch_error_flow (5 : ℕ) [some 9]).1 false rfl,
    (C1_batch_error_flow (5 : ℕ) [none, none]).2.1 (by decide) true,
    (C1_batch_error_flow (5 : ℕ) [none, some 9, some 7]).2.2 1 9 (by decide) ?_⟩
  intro j hj
  have hj0 : j = 0 := by omega
  subst hj0
  decide

/-- **C9.**  If the `tableMeta` cache has no entry for a table when its
copy phase runs, the copier substitutes the empty classification map
(line 289's `|| { typesByCol: {} }`), so the coercion loop body never
runs and every row of every fetched page is passed to the bulk insert
verbatim (no sanitization at all); nothing fails — the coercion is a
total function. -/
theorem C9_missing_meta_verbatim
    (cache : List (String × List (String × PgClass))) (t : String)
    (h : lookupA cache t = none) :
    metaFor cache t = [] ∧
    ∀ (flag : Bool) (jsParse : String → Option ℚ) (rows : List Row),
      rows.map (coerceRow flag jsParse (metaFor cache t)) = rows := by
  have hm : metaFor cache t = [] := by
    unfold metaFor
    rw [h]
    rfl
  refine ⟨hm, fun flag jsParse rows => ?_⟩
  rw [hm]
  have hid : coerceRow flag jsParse [] = fun r => r := funext fun r => rfl
  rw [hid]
  exact List.map_id' rows

/-- Witness for C9: a cache holding only `"a"`, queried for `"b"`, and a
concrete one-row page that is passed through unchanged. -/
theorem C9_witness :
    metaFor [("a", [("x", PgClass.int)])] "b" = [] ∧
    [[(("x" : String), Value.str " ")]].map
        (coerceRow true (fun _ => none) (metaFor [("a", [("x", PgClass.int)])] "b"))
      = [[(("x" : String), Value.str " ")]] := by
  have h := C9_missing_meta_verbatim [("a", [("x", PgClass.int)])] "b" (by decide)
  exact ⟨h.1, h.2 true (fun _ => none) [[(("x" : String), Value.str " ")]]⟩

/-- `'RESTRICT'.replace('RESTRICT', 'NO ACTION')` is `'NO ACTION'`, and a
missing action defaults to `'NO ACTION'`. -/
theorem normalizeAction_restrict :
    normalizeAction (some "RESTRICT") = "NO ACTION" ∧ normalizeAction none = "NO ACTION" := by
  decide

/-- **C6.**  Every constraint the linker creates comes from one id-group
of the source foreign keys; its ON UPDATE and ON DELETE actions are the
group head's actions normalized by `(… || 'NO ACTION').replace('RESTRICT',
'NO ACTION')` — so a `RESTRICT` action becomes `NO ACTION` and an absent
action becomes `NO ACTION` — and it is declared
`Deferrable.INITIALLY_DEFERRED`. -/
theorem C6_fk_normalized_deferred (tname : String) (fks : List FkRow)
    (c : FkConstraint) (hc : c ∈ addForeignKeysForTable tname fks) :
    c.initiallyDeferred = true ∧
    (∃ i p0 rest, (i, p0 :: rest) ∈ groupFksById fks ∧
      c.onUpdate = normalizeAction p0.on_update ∧
      c.onDelete = normalizeAction p0.on_delete ∧
      (p0.on_delete = some "RESTRICT" → c.onDelete = "NO ACTION") ∧
      (p0.on_delete = none → c.onDelete = "NO ACTION") ∧
      (p0.on_update = some "RESTRICT" → c.onUpdate = "NO ACTION") ∧
      (p0.on_update = none → c.onUpdate = "NO ACTION")) := by
  unfold addForeignKeysForTable at hc
  rcases List.mem_filterMap.mp hc with ⟨⟨i, parts⟩, hmem, hmk⟩
  cases parts with
  | nil => simp [mkFkConstraint] at hmk
  | cons p0 rest =>
    simp only [mkFkConstraint, Option.some.injEq] at hmk
    subst hmk
    refine ⟨rfl, i, p0, rest, hmem, rfl, rfl, fun h => ?_, fun h => ?_, fun h => ?_, fun h => ?_⟩
    · simp only [h]
      exact normalizeAction_restrict.1
    · simp only [h]
      exact normalizeAction_restrict.2
    · simp only [h]
      exact normalizeAction_restrict.1
    · simp only [h]
      exact normalizeAction_restrict.2

/-- Witness for C6: a source FK with `on_delete = "RESTRICT"` is created
with delete action `NO ACTION`, update action `CASCADE` kept, and
deferred semantics. -/
theorem C6_witness :
    ∃ c ∈ addForeignKeysForTable "child"
      [{ id := 0, table := "parent", fromCol := "pid", toCol := "id",
         on_update := some "CASCADE", on_delete := some "RESTRICT" }],
      c.onDelete = "NO ACTION" ∧ c.onUpdate = "CASCADE" ∧ c.initiallyDeferred = true := by
  refine ⟨_, List.mem_singleton.mpr rfl, ?_, by decide, ?_⟩
  · obtain ⟨_, i, p0, rest, _, _, hdel, hres, _⟩ :=
      C6_fk_normalized_deferred "child"
        [{ id := 0, table := "parent", fromCol := "pid", toCol := "id",
           on_update := some "CASCADE", on_delete := some "RESTRICT" }]
        _ (List.mem_singleton.mpr rfl)
    decide
  · exact (C6_fk_normalized_deferred "child"
      [{ id := 0, table := "parent", fromCol := "pid", toCol := "id",
         on_update := some "CASCADE", on_delete := some "RESTRICT" }]
      _ (List.mem_singleton.mpr rfl)).1

/-- **C7, counterexample.**  The claim says a string not matching the
strict anchored pattern yields null.  `" 42 "` does not match
`/^-?\d+(\.\d+)?([eE][+-]?\d+)?$/` (the anchors reject the surrounding
spaces), yet line 181 tests and returns `val.trim()`, so the sanitizer
yields the string `"42"`, not null. -/
theorem C7_counterexample :
    decPatternTest " 42 " = false ∧
      toDecimalStringOrNull true (.str " 42 ") = .str "42" ∧
      toDecimalStringOrNull true (.str " 42 ") ≠ .null := by
  decide

/-- **C7, amended.**  The decimal sanitizer carries decimals as strings,
never as floating point: a string input is first trimmed, and if the
trimmed form matches the strict decimal/scientific-notation pattern the
output is that trimmed string with its digits unchanged (in particular
`"19.990"` stays `"19.990"`, trailing zero preserved); if the trimmed
form does not match, the result is null; a finite number yields its
string form; a non-finite number yields null. -/
theorem C7_decimal_string_preserved (flag : Bool) :
    (∀ s : String, decPatternTest (jsTrim s) = true →
      toDecimalStringOrNull flag (.str s) = .str (jsTrim s)) ∧
    (∀ s : String, decPatternTest (jsTrim s) = false →
      toDecimalStringOrNull flag (.str s) = .null) ∧
    (∀ q : ℚ, toDecimalStringOrNull flag (.num (.val q)) = .str (jsNumberToString q)) ∧
    (toDecimalStringOrNull flag (.num .nan) = .null ∧
      toDecimalStringOrNull flag (.num .inf) = .null ∧
      toDecimalStringOrNull flag (.num .ninf) = .null) := by
  refine ⟨fun s h => toDecimal_str_match flag s h, fun s h => toDecimal_str_nomatch flag s h,
    fun q => ?_, ?_⟩
  · rw [toDecimalStringOrNull_esn, esn_num]
    rfl
  · refine ⟨?_, ?_, ?_⟩ <;> (rw [toDecimalStringOrNull_esn, esn_num]; rfl)

/-- Witness for C7 (amended): `"19.990"` is preserved verbatim, `"abc"`
yields null, the finite number `5` yields the string `"5"`. -/
theorem C7_witness :
    toDecimalStringOrNull true (.str "19.990") = .str "19.990" ∧
    toDecimalStringOrNull true (.str "abc") = .null ∧
    toDecimalStringOrNull true (.num (.val 5)) = .str "5" := by
  refine ⟨((C7_decimal_string_preserved true).1 "19.990" (by decide)).trans (by decide),
    (C7_decimal_string_preserved true).2.1 "abc" (by decide),
    ((C7_decimal_string_preserved true).2.2.1 5).trans ?_⟩
  decide

/-- **C4.**  The date sanitizer maps the number `0` to null; a number `n`
with `1e9 ≤ n < 1e12` to the timestamp for `n` epoch seconds
(`new Date(n * 1000)`); a number `n ≥ 1e12` to the timestamp for `n`
epoch milliseconds (`new Date(n)`); an all-digit string is first
converted to a number and then handled by those same rules; and any
other string is given the generic date parse, yielding null on parse
failure. -/
theorem C4_date_boundaries (jsParse : String → Option ℚ) :
    toJsDate jsParse (.num (.val 0)) = .null ∧
    (∀ q : ℚ, 1000000000 ≤ q → q < 1000000000000 →
      toJsDate jsParse (.num (.val q)) = .date (mkDate (.val (q * 1000)))) ∧
    (∀ q : ℚ, 1000000000000 ≤ q →
      toJsDate jsParse (.num (.val q)) = .date (mkDate (.val q))) ∧
    (∀ s : String, isAllDigitsStr s = true →
      toJsDate jsParse (.str s) = toJsDate jsParse (.num (jsNumberOfString s))) ∧
    (∀ s : String, isAllDigitsStr s = false → s ≠ "" →
      toJsDate jsParse (.str s) =
        match jsParse s with
        | none => .null
        | some t => .date (.val t)) := by
  refine ⟨rfl, fun q h1 h2 => ?_, fun q h => ?_, fun s h => ?_, fun s h1 h2 => ?_⟩
  · have h0 : ¬ (JsNum.val q = JsNum.val 0) := by
      simp only [JsNum.val.injEq]
      intro he
      rw [he] at h1
      norm_num at h1
    have hge12 : jsGe (.val q) 1000000000000 = false := by
      simp [jsGe, not_le.mpr h2]
    have hsec : (jsGe (.val q) 1000000000 && jsLt (.val q) 5000000000000) = true := by
      have h5 : q < 5000000000000 := lt_trans h2 (by norm_num)
      simp [jsGe, jsLt, h1, h5]
    show numericDatePath (.val q) = _
    rw [numericDatePath, if_neg h0, if_neg (by rw [hge12]; exact Bool.false_ne_true), if_pos hsec]
    rfl
  · have h0 : ¬ (JsNum.val q = JsNum.val 0) := by
      simp only [JsNum.val.injEq]
      intro he
      rw [he] at h
      norm_num at h
    have hge12 : jsGe (.val q) 1000000000000 = true := by simp [jsGe, h]
    show numericDatePath (.val q) = _
    rw [numericDatePath, if_neg h0, if_pos hge12]
  · have hne : ¬ s = "" := by
      intro he
      rw [he] at h
      exact absurd h (by decide)
    show toJsDate jsParse (.str s) = numericDatePath (jsNumberOfString s)
    simp [toJsDate, hne, h]
  · simp [toJsDate, h2, h1]

/-- Witness for C4 at the boundary inputs of the spec: `0 ↦ null`,
`1700000000` (seconds epoch) and `1700000000000` (milliseconds epoch)
both map to the timestamp 1700000000000 ms, the all-digit string
`"1700000000"` behaves like the number, and `"not a date"` with a failing
generic parse yields null. -/
theorem C4_witness :
    toJsDate (fun _ => none) (.num (.val 0)) = .null ∧
    toJsDate (fun _ => none) (.num (.val 1700000000)) = .date (.val 1700000000000) ∧
    toJsDate (fun _ => none) (.num (.val 1700000000000)) = .date (.val 1700000000000) ∧
    toJsDate (fun _ => none) (.str "1700000000") = .date (.val 1700000000000) ∧
    toJsDate (fun _ => none) (.str "not a date") = .null := by
  have h := C4_date_boundaries (fun _ => none)
  have hmul : (1700000000 * 1000 : ℚ) = 1700000000000 := by norm_num
  have hsec : Value.date (mkDate (.val (1700000000 * 1000))) = .date (.val 1700000000000) := by
    rw [hmul, mkDate_int rfl (by norm_num) (by norm_num)]
  have hms : Value.date (mkDate (.val 1700000000000)) = .date (.val 1700000000000) := by
    rw [mkDate_int rfl (by norm_num) (by norm_num)]
  refine ⟨h.1, ?_, ?_, ?_, ?_⟩
  · exact (h.2.1 1700000000 (by norm_num) (by norm_num)).trans hsec
  · exact (h.2.2.1 1700000000000 (by norm_num)).trans hms
  · refine (h.2.2.2.1 "1700000000" (by decide)).trans ?_
    have hnum : jsNumberOfString "1700000000" = .val 1700000000 := by decide
    rw [hnum]
    exact (h.2.1 1700000000 (by norm_num) (by norm_num)).trans hsec
  · exact (h.2.2.2.2 "not a date" (by decide) (by decide)).trans (by decide)

/-- **C8.**  Every per-class sanitizer is idempotent on canonical
outputs: null stays null for every class; a date value passes through the
date sanitizer; a boolean stays itself; a finite integral number is fixed
by the int sanitizer; every finite number is fixed by the float
sanitizer; and a pattern-matching decimal string with no surrounding
whitespace is fixed by the decimal sanitizer. -/
theorem C8_sanitizer_idempotent (flag : Bool) (jsParse : String → Option ℚ) :
    (∀ k : PgClass, sanitizeValue flag jsParse k .null = .null) ∧
    (∀ t : JsNum, sanitizeValue flag jsParse .date (.date t) = .date t) ∧
    (∀ b : Bool, sanitizeValue flag jsParse .boolean (.bool b) = .bool b) ∧
    (∀ q : ℚ, q.den = 1 → sanitizeValue flag jsParse .int (.num (.val q)) = .num (.val q)) ∧
    (∀ q : ℚ, sanitizeValue flag jsParse .float (.num (.val q)) = .num (.val q)) ∧
    (∀ s : String, decPatternTest s = true → jsTrim s = s →
      sanitizeValue flag jsParse .decimal (.str s) = .str s) := by
  refine ⟨fun k => ?_, fun t => rfl, fun b => ?_, fun q hq => ?_, fun q => ?_, fun s hm ht => ?_⟩
  · cases k with
    | date => rfl
    | boolean =>
      rw [show sanitizeValue flag jsParse .boolean .null = toBoolean flag .null from rfl,
        toBoolean_esn, esn_null]
      rfl
    | int =>
      rw [show sanitizeValue flag jsParse .int .null = toIntOrNull flag .null from rfl,
        toIntOrNull_esn, esn_null]
      rfl
    | float =>
      rw [show sanitizeValue flag jsParse .float .null = toFloatOrNull flag .null from rfl,
        toFloatOrNull_esn, esn_null]
      rfl
    | decimal =>
      rw [show sanitizeValue flag jsParse .decimal .null
          = toDecimalStringOrNull flag .null from rfl,
        toDecimalStringOrNull_esn, esn_null]
      rfl
    | other => rfl
  · rw [show sanitizeValue flag jsParse .boolean (.bool b) = toBoolean flag (.bool b) from rfl,
      toBoolean_esn, esn_bool]
    rfl
  · rw [show sanitizeValue flag jsParse .int (.num (.val q)) = toIntOrNull flag (.num (.val q))
      from rfl, toIntOrNull_esn, esn_num]
    show Value.num (.val (ratTrunc q)) = .num (.val q)
    rw [ratTrunc_den_one hq]
  · rw [show sanitizeValue flag jsParse .float (.num (.val q)) = toFloatOrNull flag (.num (.val q))
      from rfl, toFloatOrNull_esn, esn_num]
    rfl
  · have h1 : decPatternTest (jsTrim s) = true := by rw [ht]; exact hm
    exact (toDecimal_str_match flag s h1).trans (by rw [ht])

/-- Witness for C8 at concrete canonical values: null (boolean class), a
date value, `true`, the integral number `3`, the number `3`, and the
decimal string `"7.25"`. -/
theorem C8_witness :
    sanitizeValue true (fun _ => none) .boolean .null = .null ∧
    sanitizeValue true (fun _ => none) .date (.date (.val 1700000000000)) = .date (.val 1700000000000) ∧
    sanitizeValue true (fun _ => none) .boolean (.bool true) = .bool true ∧
    sanitizeValue true (fun _ => none) .int (.num (.val 3)) = .num (.val 3) ∧
    sanitizeValue true (fun _ => none) .float (.num (.val 3)) = .num (.val 3) ∧
    sanitizeValue true (fun _ => none) .decimal (.str "7.25") = .str "7.25" := by
  have h := C8_sanitizer_idempotent true (fun _ => none)
  exact ⟨h.1 .boolean, h.2.1 (.val 1700000000000), h.2.2.1 true, h.2.2.2.1 3 rfl,
    h.2.2.2.2.1 3, h.2.2.2.2.2 "7.25" (by decide) (by decide)⟩

/-- **C2.**  For every sanitizing `DestinationTypeClass` (date, boolean,
int, float, decimal — every class except `other`), the sanitizer behaves
exactly as the spec's single-flag empty-string policy describes: with the
flag enabled a string that is empty after trimming is converted to null
before the per-class logic runs, and with the flag disabled no such
conversion happens — the sanitizer equals the flag-controlled pre-pass
followed by the flag-independent per-class logic.  For the date class
this relies on the environment's `new Date(string)` parser yielding an
invalid date on whitespace-only strings (`toJsDate` itself never consults
the flag, but an empty string is nulled by its own first check and a
whitespace-only string fails the generic parse). -/
theorem C2_empty_string_policy (jsParse : String → Option ℚ)
    (hp : ∀ s : String, jsTrim s = "" → jsParse s = none)
    (flag : Bool) (k : PgClass) (hk : k ≠ .other) (v : Value) :
    sanitizeValue flag jsParse k v = sanitizeSpecEmptyPolicy flag jsParse k v := by
  cases k with
  | other => exact absurd rfl hk
  | boolean =>
    show toBoolean flag v = toBoolean false (preNullOfFlag flag v)
    rw [← esn_eq_preNull, ← toBoolean_esn]
  | int =>
    show toIntOrNull flag v = toIntOrNull false (preNullOfFlag flag v)
    rw [← esn_eq_preNull, ← toIntOrNull_esn]
  | float =>
    show toFloatOrNull flag v = toFloatOrNull false (preNullOfFlag flag v)
    rw [← esn_eq_preNull, ← toFloatOrNull_esn]
  | decimal =>
    show toDecimalStringOrNull flag v = toDecimalStringOrNull false (preNullOfFlag flag v)
    rw [← esn_eq_preNull, ← toDecimalStringOrNull_esn]
  | date =>
    show toJsDate jsParse v = toJsDate jsParse (preNullOfFlag flag v)
    cases flag with
    | false => rfl
    | true =>
      cases v with
      | str s =>
        by_cases he : jsTrim s = ""
        · have h1 : preNullOfFlag true (.str s) = .null := by simp [preNullOfFlag, he]
          rw [h1]
          by_cases hse : s = ""
          · rw [hse]
            rfl
          · have hd := not_allDigits_of_trim_empty he
            simp [toJsDate, hse, hd, hp s he]
        · have h1 : preNullOfFlag true (.str s) = .str s := by simp [preNullOfFlag, he]
          rw [h1]
      | null => rfl
      | undef => rfl
      | bool b => rfl
      | num n => rfl
      | date t => rfl

/-- Witness for C2: with the flag enabled, the int sanitizer on the
whitespace-only string `" "` agrees with the spec-side definition (both
null); the hypothesis on the generic date parser is discharged by the
everywhere-failing parser. -/
theorem C2_witness :
    sanitizeValue true (fun _ => none) .int (.str " ")
      = sanitizeSpecEmptyPolicy true (fun _ => none) .int (.str " ") ∧
    sanitizeValue true (fun _ => none) .int (.str " ") = .null :=
  ⟨C2_empty_string_policy (fun _ => none) (fun _ _ => rfl) true .int (by decide) (.str " "),
    by decide⟩

/-! ### Frame lemmas for the coercion loop (C10) -/

theorem setA_keys {β : Type} :
    ∀ (l : List (String × β)) (k : String) (v : β), k ∈ l.map Prod.fst →
      (setA l k v).map Prod.fst = l.map Prod.fst := by
  intro l
  induction l with
  | nil => intro k v h; simp at h
  | cons kv rest ih =>
    intro k v h
    cases kv with
    | mk k' v' =>
      by_cases he : k' = k
      · subst he
        simp [setA]
      · simp only [List.map_cons, List.mem_cons] at h
        rcases h with h | h
        · exact absurd h.symm he
        · simp [setA, he, ih k v h]

theorem lookupA_setA_ne {β : Type} :
    ∀ (l : List (String × β)) (k k' : String) (v : β), k' ≠ k →
      lookupA (setA l k' v) k = lookupA l k := by
  intro l
  induction l with
  | nil => intro k k' v h; simp [setA, lookupA, h]
  | cons kv rest ih =>
    intro k k' v h
    cases kv with
    | mk k0 v0 =>
      by_cases he : k0 = k'
      · simp [setA, he, lookupA, h]
      · simp only [setA, he, if_false]
        by_cases hk : k0 = k
        · simp [lookupA, hk]
        · simp [lookupA, hk, ih k k' v h]

theorem lookupA_setA_eq {β : Type} :
    ∀ (l : List (String × β)) (k : String) (v : β), lookupA (setA l k v) k = some v := by
  intro l
  induction l with
  | nil => intro k v; simp [setA, lookupA]
  | cons kv rest ih =>
    intro k v
    cases kv with
    | mk k0 v0 =>
      by_cases he : k0 = k
      · simp [setA, he, lookupA]
      · simp [setA, he, lookupA, ih k v]

theorem coerceStep_keys (flag : Bool) (jsParse : String → Option ℚ)
    (out : Row) (ck : String × PgClass) (h : ck.1 ∈ out.map Prod.fst) :
    (coerceStep flag jsParse out ck).map Prod.fst = out.map Prod.fst := by
  cases ck with
  | mk c kind => cases kind <;> simp [coerceStep, setA_keys out c _ h]

theorem coerceStep_lookup_ne (flag : Bool) (jsParse : String → Option ℚ)
    (out : Row) (ck : String × PgClass) (k : String) (h : ck.1 ≠ k) :
    lookupA (coerceStep flag jsParse out ck) k = lookupA out k := by
  cases ck with
  | mk c kind => cases kind <;> simp [coerceStep, lookupA_setA_ne out k c _ h]

theorem coerceRow_keys (flag : Bool) (jsParse : String → Option ℚ) :
    ∀ (types : List (String × PgClass)) (row : Row),
      (∀ c ∈ types.map Prod.fst, c ∈ row.map Prod.fst) →
      (coerceRow flag jsParse types row).map Prod.fst = row.map Prod.fst := by
  intro types
  induction types with
  | nil => intro row _; rfl
  | cons ck rest ih =>
    intro row h
    have hc : ck.1 ∈ row.map Prod.fst := h ck.1 (by simp)
    have hstep := coerceStep_keys flag jsParse row ck hc
    have hrest : ∀ c ∈ rest.map Prod.fst, c ∈ (coerceStep flag jsParse row ck).map Prod.fst := by
      intro c hcr
      rw [hstep]
      exact h c (by simp [hcr])
    calc (coerceRow flag jsParse (ck :: rest) row).map Prod.fst
        = (coerceRow flag jsParse rest (coerceStep flag jsParse row ck)).map Prod.fst := rfl
      _ = (coerceStep flag jsParse row ck).map Prod.fst := ih _ hrest
      _ = row.map Prod.fst := hstep

theorem coerceRow_lookup_notin (flag : Bool) (jsParse : String → Option ℚ) :
    ∀ (types : List (String × PgClass)) (row : Row) (k : String),
      k ∉ types.map Prod.fst →
      lookupA (coerceRow flag jsParse types row) k = lookupA row k := by
  intro types
  induction types with
  | nil => intro row k _; rfl
  | cons ck rest ih =>
    intro row k h
    simp only [List.map_cons, List.mem_cons, not_or] at h
    calc lookupA (coerceRow flag jsParse rest (coerceStep flag jsParse row ck)) k
        = lookupA (coerceStep flag jsParse row ck) k := ih _ k h.2
      _ = lookupA row k := coerceStep_lookup_ne flag jsParse row ck k (Ne.symm h.1)

theorem coerceRow_lookup_other (flag : Bool) (jsParse : String → Option ℚ) :
    ∀ (types : List (String × PgClass)) (row : Row) (k : String),
      (types.map Prod.fst).Nodup → (k, PgClass.other) ∈ types →
      lookupA (coerceRow flag jsParse types row) k = lookupA row k := by
  intro types
  induction types with
  | nil => intro row k _ hm; simp at hm
  | cons ck rest ih =>
    intro row k hnd hm
    have hnd' : ck.1 ∉ rest.map Prod.fst ∧ (rest.map Prod.fst).Nodup := by
      rw [List.map_cons] at hnd
      exact List.nodup_cons.mp hnd
    rcases List.mem_cons.mp hm with hh | ht
    · have hck : ck = (k, PgClass.other) := hh.symm
      subst hck
      have hstep : coerceStep flag jsParse row (k, PgClass.other) = row := rfl
      show lookupA (coerceRow flag jsParse rest (coerceStep flag jsParse row (k, .other))) k
          = lookupA row k
      rw [hstep]
      exact coerceRow_lookup_notin flag jsParse rest row k hnd'.1
    · have hne : ck.1 ≠ k := by
        intro he
        exact hnd'.1 (he ▸ List.mem_map.mpr ⟨(k, PgClass.other), ht, rfl⟩)
      calc lookupA (coerceRow flag jsParse rest (coerceStep flag jsParse row ck)) k
          = lookupA (coerceStep flag jsParse row ck) k := ih _ k hnd'.2 ht
        _ = lookupA row k := coerceStep_lookup_ne flag jsParse row ck k hne

/-- **C10.**  Sanitizing a fetched page never mutates the fetched rows
(the coercion is a pure function of the row producing a fresh shallow
copy) and changes only classified columns: when every classified column
exists in the row (as it does for rows fetched from the table the
classification was read back for) and the classification's keys are
distinct (as `Object.entries` of the JS object guarantees), the coerced
row has exactly the row's keys in the row's order (nothing added or
removed), every key absent from the classification keeps its original
value, and a key classified `other` keeps its value. -/
theorem C10_coercion_frame (flag : Bool) (jsParse : String → Option ℚ)
    (types : List (String × PgClass)) (row : Row)
    (hcov : ∀ c ∈ types.map Prod.fst, c ∈ row.map Prod.fst)
    (hnd : (types.map Prod.fst).Nodup) :
    (coerceRow flag jsParse types row).map Prod.fst = row.map Prod.fst ∧
    (∀ k : String, k ∉ types.map Prod.fst →
      lookupA (coerceRow flag jsParse types row) k = lookupA row k) ∧
    (∀ k : String, (k, PgClass.other) ∈ types →
      lookupA (coerceRow flag jsParse types row) k = lookupA row k) :=
  ⟨coerceRow_keys flag jsParse types row hcov,
   fun k hk => coerceRow_lookup_notin flag jsParse types row k hk,
   fun k hk => coerceRow_lookup_other flag jsParse types row k hnd hk⟩

/-- Witness for C10: a concrete three-column row under a two-column
classification — keys and order preserved, the unclassified column `"c"`
and the `other`-classified column `"b"` keep their original values. -/
theorem C10_witness :
    (coerceRow true (fun _ => none) [("a", PgClass.int), ("b", PgClass.other)]
        [("a", Value.str "1"), ("b", Value.str ""), ("c", Value.bool true)]).map Prod.fst
      = ["a", "b", "c"] ∧
    lookupA (coerceRow true (fun _ => none) [("a", PgClass.int), ("b", PgClass.other)]
        [("a", Value.str "1"), ("b", Value.str ""), ("c", Value.bool true)]) "c"
      = some (Value.bool true) ∧
    lookupA (coerceRow true (fun _ => none) [("a", PgClass.int), ("b", PgClass.other)]
        [("a", Value.str "1"), ("b", Value.str ""), ("c", Value.bool true)]) "b"
      = some (Value.str "") := by
  have h := C10_coercion_frame true (fun _ => none)
    [("a", PgClass.int), ("b", PgClass.other)]
    [("a", Value.str "1"), ("b", Value.str ""), ("c", Value.bool true)]
    (by decide) (by decide)
  exact ⟨h.1.trans rfl, (h.2.1 "c" (by decide)).trans rfl, (h.2.2 "b" (by decide)).trans rfl⟩

/-! ### Cache population and phase ordering (C5) -/

theorem runCreatePhase_lookup_notin (describe : String → List (String × String)) :
    ∀ (tables : List String) (m : List (String × List (String × PgClass))) (t : String),
      t ∉ tables → lookupA (runCreatePhase describe tables m) t = lookupA m t := by
  intro tables
  induction tables with
  | nil => intro m t _; rfl
  | cons u rest ih =>
    intro m t h
    simp only [List.mem_cons, not_or] at h
    calc lookupA (runCreatePhase describe rest (setA m u (classifyCols describe u))) t
        = lookupA (setA m u (classifyCols describe u)) t := ih _ t h.2
      _ = lookupA m t := lookupA_setA_ne m t u _ (Ne.symm h.1)

theorem runCreatePhase_lookup_mem (describe : String → List (String × String)) :
    ∀ (tables : List String) (m : List (String × List (String × PgClass))) (t : String),
      t ∈ tables →
      lookupA (runCreatePhase describe tables m) t = some (classifyCols describe t) := by
  intro tables
  induction tables with
  | nil => intro m t h; simp at h
  | cons u rest ih =>
    intro m t h
    by_cases hr : t ∈ rest
    · exact ih _ t hr
    · have hu : t = u := by
        rcases List.mem_cons.mp h with h1 | h1
        · exact h1
        · exact absurd h1 hr
      subst hu
      calc lookupA (runCreatePhase describe rest (setA m t (classifyCols describe t))) t
          = lookupA (setA m t (classifyCols describe t)) t :=
            runCreatePhase_lookup_notin describe rest _ t hr
        _ = some (classifyCols describe t) := lookupA_setA_eq m t _

theorem mainTrace_create_lt (addFk : Bool) (tables : List String) (i : ℕ) (a : String)
    (h : (mainTrace addFk tables).get? i = some (.create a)) : i < tables.length := by
  by_contra hge
  push_neg at hge
  have hlen : (tables.map Phase.create).length ≤ i := by simpa using hge
  rw [mainTrace, List.get?_append_right hlen] at h
  have hmem := List.get?_mem h
  rcases List.mem_append.mp hmem with hm | hm
  · rcases List.mem_map.mp hm with ⟨x, _, hx⟩
    exact Phase.noConfusion hx
  · rcases hfk : addFk with _ | _
    · rw [hfk] at hm
      simp at hm
    · rw [hfk] at hm
      simp only [if_true] at hm
      rcases List.mem_map.mp hm with ⟨x, _, hx⟩
      exact Phase.noConfusion hx

theorem mainTrace_copy_ge (addFk : Bool) (tables : List String) (j : ℕ) (b : String)
    (h : (mainTrace addFk tables).get? j = some (.copy b)) : tables.length ≤ j := by
  by_contra hlt
  push_neg at hlt
  have hlen : j < (tables.map Phase.create).length := by simpa using hlt
  rw [mainTrace, List.get?_append hlen] at h
  have hmem := List.get?_mem h
  rcases List.mem_map.mp hmem with ⟨x, _, hx⟩
  exact Phase.noConfusion hx

/-- **C5.**  For every table that reaches the copy phase, its
`tableMeta` entry has been populated before its Batch Copier runs: in
`main`'s control flow every table's DDL-and-classification step
(`Phase.create`) strictly precedes every table's data copy
(`Phase.copy`), and after the create phase the cache holds, for each
table of the run, exactly the classification read back from the
destination — so the map `copyTableData` reads (line 289) is that
populated classification, not the empty default. -/
theorem C5_meta_before_copy (describe : String → List (String × String))
    (addFk : Bool) (tables : List String) (t : String) (ht : t ∈ tables) :
    lookupA (runCreatePhase describe tables []) t = some (classifyCols describe t) ∧
    metaFor (runCreatePhase describe tables []) t = classifyCols describe t ∧
    (∀ (i j : ℕ) (a b : String),
      (mainTrace addFk tables).get? i = some (.create a) →
      (mainTrace addFk tables).get? j = some (.copy b) → i < j) := by
  have hl := runCreatePhase_lookup_mem describe tables [] t ht
  refine ⟨hl, ?_, fun i j a b hi hj => ?_⟩
  · unfold metaFor
    rw [hl]
    rfl
  · exact lt_of_lt_of_le (mainTrace_create_lt addFk tables i a hi)
      (mainTrace_copy_ge addFk tables j b hj)

/-- Witness for C5: a one-table run whose destination reports a single
`integer` column; the cache entry used at copy time is the populated
classification `[("c", int)]`, and the sole create event (index 0)
precedes the sole copy event (index 1). -/
theorem C5_witness :
    lookupA (runCreatePhase (fun _ => [("c", "integer")]) ["t1"] []) "t1"
      = some [("c", PgClass.int)] ∧
    metaFor (runCreatePhase (fun _ => [("c", "integer")]) ["t1"] []) "t1"
      = [("c", PgClass.int)] ∧
    (1 : ℕ) < 2 := by
  have h := C5_meta_before_copy (fun _ => [("c", "integer")]) false ["t1"] "t1"
    (List.mem_singleton.mpr rfl)
  refine ⟨h.1.trans (by decide), (h.2.1).trans (by decide), ?_⟩
  have := h.2.2 0 1 "t1" "t1" rfl rfl
  omega

end S2P

